import Mathlib

/-!
Verification of the `prprocessor` webhook bot (`prprocessor/__main__.py`).

The development shallowly embeds the validation and reconciliation engine:

* the commit-message parser (`COMMIT_VALID_SUMMARY_REGEX`, `COMMIT_ISSUES_REGEX`,
  `Commit.subject`, the body of `get_commits_from_pull_request`);
* the per-repository policy lookup (`get_config`, `WHITELISTED_ORGANIZATIONS`);
* the check-run reporter (`set_check_in_progress`, `run_pull_request_check`
  with its 3-attempt retry loop, summary/conclusion/output assembly);
* the tracker reconciler (`update_redmine_on_issues`);
* the merge flow (`on_pr_merge`).

Network effects are modelled by explicit traces of outbound calls (`ApiCall`)
and by an oracle (`Env`) fixing the outcome of each fallible fetch attempt.
Functions from `prprocessor.redmine` and `prprocessor.compat` are not part of
the repository snapshot under verification; where a claim depends on them they
are modelled from the spec and marked as such in their doc comments.
-/

set_option maxRecDepth 4000

/-! ## Python string helpers -/

/-- ASCII lower-casing of a single character, as `str.lower` acts on ASCII. -/
def pyLower (c : Char) : Char :=
  if 'A' ≤ c ∧ c ≤ 'Z' then Char.ofNat (c.toNat + 32) else c

/-- Lower-case a character list. -/
def lowerChars (cs : List Char) : List Char := cs.map pyLower

/-- ASCII decimal digit test (the `\d` class of the regexes, restricted to ASCII). -/
def pyIsDigit (c : Char) : Bool := '0' ≤ c && c ≤ '9'

/-- The line-boundary characters of Python's `str.splitlines`. -/
def pyIsLineBreak (c : Char) : Bool :=
  c = '\n' || c = '\r' || c = '\x0b' || c = '\x0c' ||
  c = '\x1c' || c = '\x1d' || c = '\x1e' || c = '\u0085' || c = '\u2028' || c = '\u2029'

/-- The subject of a commit, `Commit.subject`, i.e. `message.splitlines()[0]`: the text before the first
line boundary.  On the empty string `splitlines()` is `[]` and indexing raises
`IndexError`, modelled by `none`. -/
def firstLine (s : String) : Option String :=
  if s.isEmpty then none
  else some (String.mk (s.toList.takeWhile (fun c => ¬ pyIsLineBreak c)))

/-- Case-insensitive literal-pattern consumption: `stripCI pat cs` returns the
remainder of `cs` after `pat` when `cs` starts with `pat` up to ASCII case. -/
def stripCI : List Char → List Char → Option (List Char)
  | [], cs => some cs
  | _ :: _, [] => none
  | p :: ps, c :: cs => if pyLower c = pyLower p then stripCI ps cs else none

/-- Maximal leading digit run (`\d*`): returns the digits and the remainder. -/
def takeDigits : List Char → List Char × List Char
  | [] => ([], [])
  | c :: cs =>
    if pyIsDigit c then
      let t := takeDigits cs
      (c :: t.1, t.2)
    else ([], c :: cs)

/-- Python `int` on a digit string. -/
def digitsToNat (ds : List Char) : Nat :=
  ds.foldl (fun acc c => acc * 10 + (c.toNat - 48)) 0

/-! ## The commit summary regex

`COMMIT_VALID_SUMMARY_REGEX` is
`\A(?P<action>fixes|refs) (?P<issues>#(\d+)(, ?#(\d+))*)(:| -) .*\Z` with
`re.IGNORECASE`.  The pattern is deterministic (no alternative ever becomes
viable through backtracking: the two action words start with distinct letters,
a digit run is followed by a non-digit in every successful match, and the two
separators `:` and ` -` start with distinct characters), so it is embedded as
a recursive-descent matcher. -/

/-- One `#(\d+)` token: returns the digit run and the remainder. -/
def matchRefToken : List Char → Option (List Char × List Char)
  | [] => none
  | c :: cs =>
    if c = '#' then
      let t := takeDigits cs
      if t.1.isEmpty then none else some (t.1, t.2)
    else none

/-- The greedy `(, ?#(\d+))*` tail.  Returns the digit runs, the consumed
characters (part of the `issues` capture group) and the remainder.  `fuel` is
an upper bound on the recursion depth; every iteration consumes at least two
characters, so `fuel = cs.length` is always sufficient. -/
def matchRefTail : Nat → List Char → List (List Char) × List Char × List Char
  | 0, cs => ([], [], cs)
  | fuel + 1, cs =>
    match cs with
    | c1 :: c2 :: cs2 =>
      if c1 = ',' then
        if c2 = ' ' then
          match matchRefToken cs2 with
          | some (ds, rest) =>
            let t := matchRefTail fuel rest
            (ds :: t.1, ',' :: ' ' :: '#' :: (ds ++ t.2.1), t.2.2)
          | none => ([], [], cs)
        else
          match matchRefToken (c2 :: cs2) with
          | some (ds, rest) =>
            let t := matchRefTail fuel rest
            (ds :: t.1, ',' :: '#' :: (ds ++ t.2.1), t.2.2)
          | none => ([], [], cs)
      else ([], [], cs)
    | _ => ([], [], cs)

/-- The `(:| -) .*\Z` suffix of the pattern: a separator, a literal space, and
a rest that `.` can span (no `'\n'`; `re.DOTALL` is not set). -/
def sepAndRest : List Char → Option (List Char)
  | c1 :: c2 :: r =>
    if c1 = ':' ∧ c2 = ' ' then
      if r.all (fun c => c ≠ '\n') then some r else none
    else if c1 = ' ' ∧ c2 = '-' then
      match r with
      | c3 :: r2 =>
        if c3 = ' ' then
          if r2.all (fun c => c ≠ '\n') then some r2 else none
        else none
      | [] => none
    else none
  | _ => none

/-- The `(fixes|refs)` alternative: returns the matched text (original case)
and the remainder. -/
def actionMatch (cs : List Char) : Option (List Char × List Char) :=
  match stripCI ['f', 'i', 'x', 'e', 's'] cs with
  | some rest => some (cs.take 5, rest)
  | none =>
    match stripCI ['r', 'e', 'f', 's'] cs with
    | some rest => some (cs.take 4, rest)
    | none => none

/-- A successful match of `COMMIT_VALID_SUMMARY_REGEX`: the `action` group (in
original case), the digit runs of the reference tokens in order, and the text
of the `issues` group. -/
structure SummaryMatch where
  action : List Char
  tokens : List (List Char)
  issuesSpan : List Char
deriving DecidableEq

/-- The match of `COMMIT_VALID_SUMMARY_REGEX` on a subject line. -/
def commitValidSummaryMatch (subject : List Char) : Option SummaryMatch :=
  match actionMatch subject with
  | none => none
  | some (act, rest0) =>
    match rest0 with
    | c :: cs1 =>
      if c = ' ' then
        match matchRefToken cs1 with
        | none => none
        | some (ds, rest1) =>
          let t := matchRefTail rest1.length rest1
          match sepAndRest t.2.2 with
          | none => none
          | some _ => some ⟨act, ds :: t.1, '#' :: (ds ++ t.2.1)⟩
      else none
    | [] => none

/-- Scanner state machine for `COMMIT_ISSUES_REGEX.findall` (`#(\d+)`): `none`
means no token is open, `some acc` holds the (reversed) digits read since the
last `#`. -/
def findRefsAux : List Char → Option (List Char) → List (List Char)
  | [], none => []
  | [], some acc => if acc.isEmpty then [] else [acc.reverse]
  | c :: cs, none => if c = '#' then findRefsAux cs (some []) else findRefsAux cs none
  | c :: cs, some acc =>
    if pyIsDigit c then findRefsAux cs (some (c :: acc))
    else if acc.isEmpty then
      (if c = '#' then findRefsAux cs (some []) else findRefsAux cs none)
    else
      acc.reverse :: (if c = '#' then findRefsAux cs (some []) else findRefsAux cs none)

/-- The matches of `COMMIT_ISSUES_REGEX.findall`: all non-overlapping `#(\d+)` captures. -/
def findIssueRefs (cs : List Char) : List (List Char) := findRefsAux cs none

/-- Python `set` built from a list by repeated `add`, keeping first-occurrence
order. -/
def pySetList (xs : List Nat) : List Nat :=
  xs.foldl (fun acc x => if x ∈ acc then acc else acc ++ [x]) []

/-- The `fixes` and `refs` sets of a `Commit` after the parsing step of
`get_commits_from_pull_request`. -/
structure ParsedRefs where
  fixes : List Nat
  refs : List Nat
deriving DecidableEq

/-- The parsing step of `get_commits_from_pull_request` for one commit message:
take the subject (`splitlines()[0]` — `IndexError` on the empty message,
modelled as `.error ()`), match `COMMIT_VALID_SUMMARY_REGEX`, and on a match
add `int(issue)` for every `findall` hit in the `issues` group to the set
selected by `getattr(commit, action.lower())`. -/
def parseCommitMessage (message : String) : Except Unit ParsedRefs :=
  match firstLine message with
  | none => .error ()
  | some line =>
    match commitValidSummaryMatch line.toList with
    | none => .ok ⟨[], []⟩
    | some m =>
      let ids := pySetList ((findIssueRefs m.issuesSpan).map digitsToNat)
      if lowerChars m.action = "fixes".toList then .ok ⟨ids, []⟩
      else if lowerChars m.action = "refs".toList then .ok ⟨[], ids⟩
      else .error ()

/-! ## Per-repository policy (`Config`, `get_config`) -/

/-- A repository `Config` entry (built from `config/repos.yaml`).  The
`version_prefix` field is called `versionPfx` here. -/
structure Config where
  project : Option String := none
  required : Bool := false
  refs : List String := []
  versionPfx : Option String := none
deriving DecidableEq

/-- The constant `WHITELISTED_ORGANIZATIONS`. -/
def WHITELISTED_ORGANIZATIONS : List String := ["theforeman", "Katello"]

/-- Python `repository.split('/', 1)` unpacked into two variables: `none` models the
`ValueError` raised when the string holds no `'/'`. -/
def splitSlashAux : List Char → Option (List Char × List Char)
  | [] => none
  | c :: cs =>
    if c = '/' then some ([], cs)
    else
      match splitSlashAux cs with
      | some (a, b) => some (c :: a, b)
      | none => none

/-- String-level wrapper for `splitSlashAux`. -/
def splitOnceOnSlash (s : String) : Option (String × String) :=
  (splitSlashAux s.toList).map (fun p => (String.mk p.1, String.mk p.2))

/-- Python `dict` lookup in the `CONFIG` table.  The table itself comes from
`config/repos.yaml`, which is data, not code; it is a parameter here. -/
def lookupAssoc (cfg : List (String × Config)) (k : String) : Option Config :=
  (cfg.find? (fun p => p.1 = k)).map (fun p => p.2)

/-- The exceptions `get_config` can raise. -/
inductive ConfigErr where
  | unconfigured
  | valueError
deriving DecidableEq

/-- The lookup `get_config`: explicit entry, else the whitelist fallback, else
`UnconfiguredRepository`. -/
def get_config (cfg : List (String × Config)) (repository : String) : Except ConfigErr Config :=
  match lookupAssoc cfg repository with
  | some c => .ok c
  | none =>
    match splitOnceOnSlash repository with
    | none => .error .valueError
    | some (user, _) =>
      if user ∈ WHITELISTED_ORGANIZATIONS then .ok {} else .error .unconfigured

/-! ## Tracker data model -/

/-- A tracker version (`redminelib` `Version`): its name and whether it is
open. -/
structure RVersion where
  name : String
  isOpen : Bool
deriving DecidableEq

/-- A tracker project: identifier, name, base URL and its versions. -/
structure RProject where
  id : Nat
  name : String
  url : String
  versions : List RVersion
deriving DecidableEq

/-- A tracker issue as the validation flow reads it: identifier, subject, URL
and owning project. -/
structure RIssue where
  id : Nat
  subject : String
  url : String
  project : RProject
deriving DecidableEq

/-- The tracker boundary: all projects and issues it would return. -/
structure RTracker where
  projects : List RProject
  issues : List RIssue
deriving DecidableEq

/-- The `IssueValidation` record returned by `verify_issues`. -/
structure IssueValidation where
  valid_issues : List RIssue
  invalid_project_issues : List RIssue
  missing_issue_ids : List Nat
  project : RProject
deriving DecidableEq

/-- Insert an issue into a list sorted by ascending id. -/
def insertIssueById (x : RIssue) : List RIssue → List RIssue
  | [] => [x]
  | y :: ys => if x.id ≤ y.id then x :: y :: ys else y :: insertIssueById x ys

/-- Sort issues by ascending id (Python `sorted(..., key=lambda i: i.id)`). -/
def sortIssuesById (l : List RIssue) : List RIssue := l.foldr insertIssueById []

/-- Insert a number into an ascending list. -/
def insertNatLe (x : Nat) : List Nat → List Nat
  | [] => [x]
  | y :: ys => if x ≤ y then x :: y :: ys else y :: insertNatLe x ys

/-- Sort numbers ascending. -/
def sortNatLe (l : List Nat) : List Nat := l.foldr insertNatLe []

/-- Modelled from the spec: `verify_issues` from `prprocessor.redmine` (that
module is not under `src/`).  Per §4.3 of the spec it resolves the policy's
tracker project (failure when unset or unknown, modelled as `none`), fetches
the requested ids, and partitions them: an id with no issue goes to
`missing_issue_ids`; an issue whose project differs from the target and is not
in the accepted extra projects (`Config.refs`) goes to
`invalid_project_issues`; the rest are `valid_issues`.  Result lists are
sorted by ascending issue id. -/
def verify_issues (config : Config) (tracker : RTracker) (ids : List Nat) :
    Option IssueValidation :=
  match config.project with
  | none => none
  | some pname =>
    match tracker.projects.find? (fun p => p.name = pname) with
    | none => none
    | some proj =>
      let found := tracker.issues.filter (fun i => decide (i.id ∈ ids))
      let missing := ids.filter (fun n => ¬ tracker.issues.any (fun i => i.id = n))
      let invalid := found.filter
        (fun i => decide (i.project.name ≠ proj.name ∧ i.project.name ∉ config.refs))
      let valid := found.filter
        (fun i => ¬ decide (i.project.name ≠ proj.name ∧ i.project.name ∉ config.refs))
      some ⟨sortIssuesById valid, sortIssuesById invalid, sortNatLe missing, proj⟩

/-! ## Report formatting -/

/-- A commit as fetched from the pull request: sha and message. -/
structure PCommit where
  sha : String
  message : String
deriving DecidableEq

/-- The formatter `format_invalid_commit_messages`. -/
def format_invalid_commit_messages (commits : List PCommit) : List String :=
  commits.map (fun c => c.sha ++ " must be in the format `fixes #redmine - brief description`")

/-- The formatter `format_redmine_issues`. -/
def format_redmine_issues (issues : List RIssue) : List String :=
  (sortIssuesById issues).map
    (fun i => "[#" ++ toString i.id ++ ": " ++ i.subject ++ "](" ++ i.url ++ ")")

/-- The formatter `format_details`: the per-issue remediation text. -/
def format_details (invalid_issues : List RIssue) (correct_project : RProject) : String :=
  String.intercalate "\n" (invalid_issues.map (fun issue =>
    "### [#" ++ toString issue.id ++ ": " ++ issue.subject ++ "](" ++ issue.url ++ ")\n\n" ++
    "* check [#" ++ toString issue.id ++ "](" ++ issue.url ++ ") is the intended issue\n" ++
    "* move [ticket #" ++ toString issue.id ++ "](" ++ issue.url ++ ") from " ++
      issue.project.name ++ " to the " ++ correct_project.name ++ " project\n" ++
    "* or file a new ticket in the [" ++ correct_project.name ++ " project](" ++
      correct_project.url ++ "/issues/new)\n"))

/-- The generator `summarize`: per non-empty category, a `### header` line when
`show_headers`, then one bullet per line. -/
def summarize (summary : List (String × List String)) (show_headers : Bool) : List String :=
  (summary.map (fun p =>
    if p.2.isEmpty then []
    else (if show_headers then ["### " ++ p.1] else []) ++ p.2.map (fun l => "* " ++ l))).flatten

/-- The `summary` dict built in `run_pull_request_check` (insertion order). -/
def issue_summary (results : IssueValidation) (invalid_commits : List PCommit) :
    List (String × List String) :=
  [("Invalid commits", format_invalid_commit_messages invalid_commits),
   ("Invalid project", format_redmine_issues results.invalid_project_issues),
   ("Issues not found in redmine", results.missing_issue_ids.map (fun n => toString n)),
   ("Valid issues", format_redmine_issues results.valid_issues)]

/-! ## Check runs and the orchestration of `run_pull_request_check` -/

/-- The slice of a GitHub check-run object the code reads: its URL, status and
current output text. -/
structure CheckRunInfo where
  url : String
  status : String
  outputText : Option String
deriving DecidableEq

/-- The check-run `output` payload (`text = none` models the deleted key). -/
structure Output where
  title : String
  summary : String
  text : Option String
deriving DecidableEq

/-- One outbound side effect of the bot. -/
inductive ApiCall where
  | postRun (url : String)
  | patchInProgress (url : String)
  | patchCompleted (url : String) (conclusion : String) (output : Output)
  | sleep (seconds : Nat)
  | issueSave (issueId : Nat)
  | setFixedInVersion (issueId : Nat) (version : String)
deriving DecidableEq

/-- The transition `set_check_in_progress`: patch an existing run unless it already is
`in_progress`, otherwise create one (`created` is the platform's response to
the `POST`).  The `patch` response is discarded by the code, so the supplied
handle is returned as-is. -/
def set_check_in_progress (created : CheckRunInfo) (pr_base_repo_url : String)
    (check_run : Option CheckRunInfo) : List ApiCall × CheckRunInfo :=
  match check_run with
  | some cr =>
    if cr.status ≠ "in_progress" then ([ApiCall.patchInProgress cr.url], cr) else ([], cr)
  | none => ([ApiCall.postRun (pr_base_repo_url ++ "/check-runs")], created)

/-- The exceptions distinguished by `run_pull_request_check`'s handlers. -/
inductive PyErr where
  | unconfigured
  | other
deriving DecidableEq

/-- Oracle for one validation run: the outcome of each `get_issues_from_pr`
attempt (1-based), the platform's response to a check-run `POST`, and the
behaviour of the `update_redmine_on_issues` side call (its issue saves, and
whether it ends in an exception — which lines 204-205 swallow). -/
structure Env where
  attemptOutcome : Nat → Except PyErr (IssueValidation × List PCommit)
  createdRun : CheckRunInfo
  redmineSaves : List Nat
  redmineRaises : Bool

/-- The retry loop of `run_pull_request_check` (lines 181-189): `attempts` is
the constant 3, `attempt` counts from 1, `fuel` bounds the iterations (the
call sites use `fuel = attempts`).  Returns the `sleep` trace and the final
outcome; a failure on the last attempt re-raises. -/
def attemptLoop (env : Env) (attempts : Nat) :
    Nat → Nat → List ApiCall × Except PyErr (IssueValidation × List PCommit)
  | _, 0 => ([], .error .other)
  | attempt, fuel + 1 =>
    match env.attemptOutcome attempt with
    | .ok r => ([], .ok r)
    | .error e =>
      if attempt = attempts then ([], .error e)
      else
        let t := attemptLoop env attempts (attempt + 1) fuel
        (ApiCall.sleep attempt :: t.1, t.2)

/-- The fixed output of the `except UnconfiguredRepository` handler. -/
def unknownRepositoryOutput : Output :=
  ⟨"Unknown repository", "Contact us via [Discourse](https://community.theforeman.org]", none⟩

/-- The fixed output of the bare `except` handler after exhausted retries. -/
def internalErrorOutput : Output :=
  ⟨"Internal error while testing", "Please retry later", none⟩

/-- Lines 207-229: build the summary dict, derive `conclusion` (pessimistic
`failure`, flipped to `success` only when no non-empty header other than
`Valid issues` exists), the title, the joined summary, and the `text` field
(dropped when empty and the check run held no prior text). -/
def conclusionAndOutput (check_run : CheckRunInfo) (results : IssueValidation)
    (invalid_commits : List PCommit) : String × Output :=
  let summary := issue_summary results invalid_commits
  let non_empty := (summary.filter (fun p => ¬ p.2.isEmpty)).map (fun p => p.1)
  let multiple_sections := non_empty.length ≠ 1
  let conclusion :=
    if non_empty.any (fun header => decide (header ≠ "Valid issues")) then "failure"
    else "success"
  let text := format_details results.invalid_project_issues results.project
  let textField :=
    if text = "" ∧ check_run.outputText.getD "" = "" then none else some text
  (conclusion,
   { title := if multiple_sections then "Redmine Issue Report" else non_empty.headD "",
     summary := String.intercalate "\n" (summarize summary multiple_sections),
     text := textField })

/-- The tail of `run_pull_request_check` after the in-progress transition `s`
and the retry loop `r`: route the outcome through the three handlers and issue
the single completion patch.  Returns the full call trace together with the
final conclusion and output. -/
def completeCheck (s : List ApiCall × CheckRunInfo)
    (r : List ApiCall × Except PyErr (IssueValidation × List PCommit))
    (saves : List Nat) : List ApiCall × String × Output :=
  match r.2 with
  | .error .unconfigured =>
    (s.1 ++ r.1 ++ [ApiCall.patchCompleted s.2.url "failure" unknownRepositoryOutput],
     "failure", unknownRepositoryOutput)
  | .error .other =>
    (s.1 ++ r.1 ++ [ApiCall.patchCompleted s.2.url "failure" internalErrorOutput],
     "failure", internalErrorOutput)
  | .ok res =>
    let co := conclusionAndOutput s.2 res.1 res.2
    (s.1 ++ r.1 ++ saves.map ApiCall.issueSave ++
       [ApiCall.patchCompleted s.2.url co.1 co.2],
     co.1, co.2)

/-- The handler `run_pull_request_check` for one validation attempt against oracle `env`:
drive the check run to `in_progress`, run the retry loop, swallow the
reconciliation outcome, and issue exactly one completion patch. -/
def run_pull_request_check (env : Env) (pr_base_repo_url : String)
    (check_run : Option CheckRunInfo) : List ApiCall × String × Output :=
  completeCheck (set_check_in_progress env.createdRun pr_base_repo_url check_run)
    (attemptLoop env 3 1 3) env.redmineSaves

/-! ## `get_issues_from_pr` (the verification body) -/

/-- The loop of `get_issues_from_pr`: accumulate the union of every commit's
`fixes` and `refs` sets and, when the policy requires references, the commits
that carry none.  A parse failure propagates. -/
def collectCommitsGo (config : Config) :
    List PCommit → List Nat → List PCommit → Except Unit (List Nat × List PCommit)
  | [], ids, inv => .ok (ids, inv.reverse)
  | c :: cs, ids, inv =>
    match parseCommitMessage c.message with
    | .error e => .error e
    | .ok r =>
      let ids1 := r.fixes.foldl (fun acc x => if x ∈ acc then acc else acc ++ [x]) ids
      let ids2 := r.refs.foldl (fun acc x => if x ∈ acc then acc else acc ++ [x]) ids1
      let inv1 := if config.required ∧ r.fixes = [] ∧ r.refs = [] then c :: inv else inv
      collectCommitsGo config cs ids2 inv1

/-- The body `get_issues_from_pr`: policy lookup, commit parsing, then `verify_issues`.
`UnconfiguredRepository` keeps its identity; every other exception (parse
`IndexError`, malformed repository name, tracker failure) is some other
exception to the caller's bare handlers. -/
def get_issues_from_pr (cfg : List (String × Config)) (tracker : RTracker)
    (repoFullName : String) (commits : List PCommit) :
    Except PyErr (IssueValidation × List PCommit) :=
  match get_config cfg repoFullName with
  | .error .unconfigured => .error .unconfigured
  | .error .valueError => .error .other
  | .ok config =>
    match collectCommitsGo config commits [] [] with
    | .error _ => .error .other
    | .ok (ids, invalid) =>
      match verify_issues config tracker ids with
      | none => .error .other
      | some v => .ok (v, invalid)

/-! ## `update_redmine_on_issues` (the tracker reconciler) -/

/-- Modelled from the spec: the workflow-status vocabulary of
`prprocessor.redmine.Status` (not under `src/`) — which status ids count as
rejected, which as closed, and the id of `READY_FOR_TESTING`. -/
structure StatusModel where
  rejected : Nat → Bool
  closed : Nat → Bool
  readyForTesting : Nat

/-- A tracker issue as the reconciler reads and writes it: status id, the
linked-PR custom field (`Field.PULL_REQUEST`: field id and list value) and the
optional assignee. -/
structure TIssue where
  id : Nat
  statusId : Nat
  prFieldId : Nat
  prFieldValue : List String
  assignedTo : Option Nat
deriving DecidableEq

/-- The `updates` diff assembled for one issue (lines 253-274). -/
structure IssueUpdates where
  customFields : List (Nat × List String)
  assignedToId : Option Nat
  statusId : Option Nat
deriving DecidableEq

/-- Python's truthiness of the `updates` dict. -/
def IssueUpdates.isEmpty (u : IssueUpdates) : Bool :=
  u.customFields.isEmpty && u.assignedToId.isNone && u.statusId.isNone

/-- Lines 253-274 for a non-rejected issue: append the PR URL to the linked-PR
field unless the PR is a cherry-pick or the URL is present; set the assignee
when one is mapped and the issue has none; move to `READY_FOR_TESTING` unless
closed or already there. -/
def computeUpdates (sm : StatusModel) (pr_url : String) (cherry_pick : Bool)
    (assignee : Option Nat) (issue : TIssue) : IssueUpdates :=
  let cf :=
    if ¬ cherry_pick ∧ pr_url ∉ issue.prFieldValue then
      [(issue.prFieldId, issue.prFieldValue ++ [pr_url])]
    else []
  let asg :=
    match assignee with
    | some a => if issue.assignedTo = none then some a else none
    | none => none
  let st :=
    if ¬ (sm.closed issue.statusId ∨ issue.statusId = sm.readyForTesting) then
      some sm.readyForTesting
    else none
  ⟨cf, asg, st⟩

/-- The tracker's application of `issue.save(**updates)`. -/
def applyUpdates (issue : TIssue) (u : IssueUpdates) : TIssue :=
  { issue with
    prFieldValue :=
      match u.customFields.find? (fun p => p.1 = issue.prFieldId) with
      | some p => p.2
      | none => issue.prFieldValue,
    assignedTo :=
      match u.assignedToId with
      | some a => some a
      | none => issue.assignedTo,
    statusId := (u.statusId).getD issue.statusId }

/-- The body of `update_redmine_on_issues` for one issue: skip rejected
statuses; otherwise assemble the diff and issue a single save only when it is
non-empty.  Returns the save trace and the issue's resulting tracker state. -/
def update_redmine_on_issue (sm : StatusModel) (pr_url : String) (cherry_pick : Bool)
    (assignee : Option Nat) (issue : TIssue) : List (Nat × IssueUpdates) × TIssue :=
  if sm.rejected issue.statusId then ([], issue)
  else
    let updates := computeUpdates sm pr_url cherry_pick assignee issue
    if updates.isEmpty then ([], issue)
    else ([(issue.id, updates)], applyUpdates issue updates)

/-- The reconciler `update_redmine_on_issues` over the valid-issue list: each issue is
handled independently. -/
def update_redmine_on_issues (sm : StatusModel) (pr_url : String) (cherry_pick : Bool)
    (assignee : Option Nat) (issues : List TIssue) :
    List (Nat × IssueUpdates) × List TIssue :=
  ((issues.map (fun i => (update_redmine_on_issue sm pr_url cherry_pick assignee i).1)).flatten,
   issues.map (fun i => (update_redmine_on_issue sm pr_url cherry_pick assignee i).2))

/-! ## `on_pr_merge` (the fix-version flow) -/

/-- List-level suffix test used for `str.endswith`. -/
def strEndsWith (s suf : String) : Bool := List.isSuffixOf suf.toList s.toList

/-- Modelled from the spec: `strip_suffix` from `prprocessor.compat` (not
under `src/`) — remove the given suffix from the branch name, per the call
site's comment about deriving the version prefix from a `-stable` branch. -/
def strip_suffix (s suf : String) : String :=
  if strEndsWith s suf then String.mk (s.toList.take (s.toList.length - suf.toList.length))
  else s

/-- Lines 343-353: the recognised base branches and the version prefix each
one yields (`none` for an unrecognised branch: the handler returns). -/
def recognizedBranchPfx (branch : String) : Option String :=
  if strEndsWith branch "-stable" then some (strip_suffix branch "-stable" ++ ".")
  else if branch = "main" ∨ branch = "master" ∨ branch = "develop" ∨
          branch = "deb/develop" ∨ branch = "rpm/develop" then some ""
  else none

/-- Line 363-364: prepend the configured `redmine_version_prefix` when it is
truthy. -/
def computedPfx (config : Config) (pfx0 : String) : String :=
  match config.versionPfx with
  | some vp => if vp = "" then pfx0 else vp ++ pfx0
  | none => pfx0

/-- Lines 366-368: gather only the `fixes` references of the commits. -/
def gatherFixesGo : List PCommit → List Nat → Except Unit (List Nat)
  | [], ids => .ok ids
  | c :: cs, ids =>
    match parseCommitMessage c.message with
    | .error e => .error e
    | .ok r => gatherFixesGo cs (r.fixes.foldl (fun acc x => if x ∈ acc then acc else acc ++ [x]) ids)

/-- The fixes-only id set of a commit list. -/
def gatherFixes (commits : List PCommit) : Except Unit (List Nat) := gatherFixesGo commits []

/-- Modelled from the spec: `get_latest_open_version` from
`prprocessor.redmine` (not under `src/`) — the latest open version of the
project whose name starts with the prefix (`latest` taken as the last such

entry in the project's version list). -/
def get_latest_open_version (project : RProject) (pfx : String) : Option RVersion :=
  (project.versions.filter (fun v => v.isOpen && List.isPrefixOf pfx.toList v.name.toList)).getLast?

/-- The handler `on_pr_merge`: only merged PRs into a recognised branch; unconfigured
repositories and missing projects or versions are silent no-ops; issues of the
configured project among the `fixes` references get their fix-version set
(`set_fixed_in_version` from `prprocessor.redmine`, modelled from the spec as
the corresponding tracker write).  An unexpected exception (malformed
repository name, unknown project, commit parse failure) propagates. -/
def on_pr_merge (cfg : List (String × Config)) (tracker : RTracker)
    (merged : Bool) (baseRepoFullName baseRef : String) (commits : List PCommit) :
    Except Unit (List ApiCall) :=
  if ¬ merged then .ok []
  else
    match recognizedBranchPfx baseRef with
    | none => .ok []
    | some pfx0 =>
      match get_config cfg baseRepoFullName with
      | .error .unconfigured => .ok []
      | .error .valueError => .error ()
      | .ok config =>
        match config.project with
        | none => .ok []
        | some pname =>
          match gatherFixes commits with
          | .error e => .error e
          | .ok ids =>
            if ids.isEmpty then .ok []
            else
              match tracker.projects.find? (fun p => p.name = pname) with
              | none => .error ()
              | some project =>
                match get_latest_open_version project (computedPfx config pfx0) with
                | none => .ok []
                | some ver =>
                  .ok ((tracker.issues.filter (fun i => decide (i.id ∈ ids))).filterMap
                    (fun issue =>
                      if issue.project.id = project.id then
                        some (ApiCall.setFixedInVersion issue.id ver.name)
                      else none))

/-! ## Concrete instances used by witnesses and counterexamples -/

/-- A fresh check-run object as the platform returns it from the `POST`. -/
def crNew : CheckRunInfo := ⟨"https://api.github.example/check-runs/1", "queued", none⟩

/-- A check run that is already `in_progress`. -/
def crInProgress : CheckRunInfo := ⟨"https://api.github.example/check-runs/2", "in_progress", none⟩

/-- A placeholder project. -/
def projNone : RProject := ⟨0, "placeholder", "https://redmine.example/projects/placeholder", []⟩

/-- A validation result with no findings at all. -/
def emptyValidation : IssueValidation := ⟨[], [], [], projNone⟩

/-- Oracle: every attempt raises `UnconfiguredRepository`. -/
def envAllUnconf : Env := ⟨fun _ => .error .unconfigured, crNew, [], false⟩

/-- Oracle: the first attempt raises `UnconfiguredRepository`, later attempts
succeed with no findings. -/
def envRetryOk : Env :=
  ⟨fun attempt => if attempt = 1 then .error .unconfigured else .ok (emptyValidation, []),
   crNew, [], false⟩

/-- Oracle: every attempt succeeds with no findings. -/
def envOkEmpty : Env := ⟨fun _ => .ok (emptyValidation, []), crNew, [], false⟩

/-- Oracle: every attempt raises some other exception. -/
def envAllErr : Env := ⟨fun _ => .error .other, crNew, [], false⟩

/-- The tracker project of the C4 scenario policy. -/
def projFoo : RProject := ⟨1, "foo", "https://redmine.example/projects/foo", []⟩

/-- The other tracker project of the C4 scenario. -/
def projBar : RProject := ⟨2, "bar", "https://redmine.example/projects/bar", []⟩

/-- Issue 55, belonging to project `bar`. -/
def issue55 : RIssue := ⟨55, "Some bug", "https://redmine.example/issues/55", projBar⟩

/-- The tracker of the C4 scenario. -/
def trackerC4 : RTracker := ⟨[projFoo, projBar], [issue55]⟩

/-- The policy table of the C4 scenario: project `foo`, `bar` not accepted. -/
def cfgC4 : List (String × Config) := [("theforeman/widget", ⟨some "foo", false, [], none⟩)]

/-- Oracle for the C4 scenario as literally stated: single commit message
`"fixes #55"`. -/
def envC4bad : Env :=
  ⟨fun _ => get_issues_from_pr cfgC4 trackerC4 "theforeman/widget" [⟨"abc123", "fixes #55"⟩],
   crNew, [], false⟩

/-- Oracle for the C4 scenario with a grammar-conforming message. -/
def envC4good : Env :=
  ⟨fun _ => get_issues_from_pr cfgC4 trackerC4 "theforeman/widget"
      [⟨"abc123", "fixes #55: fix the bug"⟩],
   crNew, [], false⟩

/-- A project with open versions, for the merge-flow witness. -/
def projFM : RProject :=
  ⟨3, "foreman", "https://redmine.example/projects/foreman", [⟨"3.0.5", true⟩, ⟨"3.1.0", true⟩]⟩

/-- Issue 10, belonging to `projFM`. -/
def issue10 : RIssue := ⟨10, "bug", "https://redmine.example/issues/10", projFM⟩

/-- Tracker for the merge-flow witness. -/
def trackerC6 : RTracker := ⟨[projFM], [issue10]⟩

/-- Policy table for the merge-flow witness. -/
def cfgC6 : List (String × Config) := [("theforeman/foreman", ⟨some "foreman", true, [], none⟩)]

/-- A status model for the reconciler witness: status 1 open, 5 closed,
6 rejected, 2 is `READY_FOR_TESTING`. -/
def smW : StatusModel := ⟨fun s => s = 6, fun s => s = 5, 2⟩

/-- An out-of-sync issue for the reconciler witness. -/
def issueW : TIssue := ⟨42, 1, 9, [], none⟩

/-- Does an `ApiCall` complete a check run? -/
def isCompletionCall : ApiCall → Bool
  | .patchCompleted _ _ _ => true
  | _ => false

/-! ## General helper lemmas -/

theorem strMk_toList (s : String) : String.mk s.toList = s := rfl

theorem isEmpty_false_of_ne (s : String) (h : s ≠ "") : s.isEmpty = false := by
  cases hs : s.isEmpty
  · rfl
  · exact absurd ((String.isEmpty_iff s).mp hs) h

theorem attemptLoop_congr (e1 e2 : Env) (h : e1.attemptOutcome = e2.attemptOutcome)
    (attempts : Nat) (fuel : Nat) : ∀ attempt,
    attemptLoop e1 attempts attempt fuel = attemptLoop e2 attempts attempt fuel := by
  induction fuel with
  | zero => intro attempt; rfl
  | succ n ih =>
    intro attempt
    simp only [attemptLoop, h]
    cases e2.attemptOutcome attempt with
    | ok r => rfl
    | error e => by_cases hq : attempt = attempts <;> simp [hq, ih]

theorem completeCheck_snd_congr (s : List ApiCall × CheckRunInfo)
    (r : List ApiCall × Except PyErr (IssueValidation × List PCommit))
    (saves1 saves2 : List Nat) :
    (completeCheck s r saves1).2 = (completeCheck s r saves2).2 := by
  rcases r with ⟨tr, res⟩
  cases res with
  | ok v => rfl
  | error e => cases e <;> rfl

theorem attemptLoop_trace_sleep (env : Env) (attempts fuel : Nat) : ∀ attempt,
    ∀ c ∈ (attemptLoop env attempts attempt fuel).1, ∃ n, c = ApiCall.sleep n := by
  induction fuel with
  | zero => intro attempt c hc; simp [attemptLoop] at hc
  | succ n ih =>
    intro attempt c hc
    simp only [attemptLoop] at hc
    cases ho : env.attemptOutcome attempt with
    | ok r => rw [ho] at hc; simp at hc
    | error e =>
      rw [ho] at hc
      by_cases hq : attempt = attempts
      · simp [hq] at hc
      · simp only [hq, if_false] at hc
        rcases List.mem_cons.mp hc with h | h
        · exact ⟨attempt, h⟩
        · exact ih (attempt + 1) c h

theorem set_check_trace_not_completion (created : CheckRunInfo) (url : String)
    (cr : Option CheckRunInfo) :
    ∀ c ∈ (set_check_in_progress created url cr).1, isCompletionCall c = false := by
  intro c hc
  cases cr with
  | none => simp [set_check_in_progress] at hc; subst hc; rfl
  | some cr0 =>
    simp only [set_check_in_progress] at hc
    by_cases hs : cr0.status ≠ "in_progress"
    · simp [hs] at hc; subst hc; rfl
    · simp [hs] at hc

/-! ## C10: re-delivered in-progress transitions are write-free -/

/-- C10: if the supplied check-run handle is already `in_progress`,
`set_check_in_progress` issues no platform write at all and returns the handle
unchanged. -/
theorem set_check_in_progress_noop (created : CheckRunInfo) (url : String)
    (cr : CheckRunInfo) (h : cr.status = "in_progress") :
    set_check_in_progress created url (some cr) = ([], cr) := by
  simp [set_check_in_progress, h]

/-- Witness for C10 at a concrete in-progress check run. -/
theorem set_check_in_progress_noop_witness :
    crInProgress.status = "in_progress" ∧
    set_check_in_progress crNew "https://api.github.example/repos/o/r" (some crInProgress) =
      ([], crInProgress) :=
  ⟨rfl, set_check_in_progress_noop crNew "https://api.github.example/repos/o/r" crInProgress rfl⟩

/-! ## C8: reconciliation failures never reach the check run -/

/-- C8: the final conclusion and output of `run_pull_request_check` do not
depend on the behaviour of the `update_redmine_on_issues` call — its saves and
a possible exception (swallowed by the bare handler at lines 204-205) leave
the completion payload unchanged, and the run always returns (no exception
propagates to the caller). -/
theorem reconciliation_never_affects_conclusion (env : Env) (url : String)
    (cr : Option CheckRunInfo) (saves : List Nat) (b : Bool) :
    (run_pull_request_check { env with redmineSaves := saves, redmineRaises := b } url cr).2 =
      (run_pull_request_check env url cr).2 := by
  unfold run_pull_request_check
  rw [attemptLoop_congr { env with redmineSaves := saves, redmineRaises := b } env rfl 3 3 1]
  exact completeCheck_snd_congr _ _ saves env.redmineSaves

/-! ## C9: exactly one completion per validation attempt -/

/-- C9: every validation attempt issues exactly one completion patch, it
targets the check run selected by the in-progress transition, and it is the
last outbound call of the attempt (the run is never left `in_progress`). -/
theorem exactly_one_completion (env : Env) (url : String) (cr : Option CheckRunInfo) :
    ((run_pull_request_check env url cr).1.filter isCompletionCall).length = 1 ∧
    (∃ c o, (run_pull_request_check env url cr).1.getLast? =
      some (ApiCall.patchCompleted (set_check_in_progress env.createdRun url cr).2.url c o)) := by
  have hs : (set_check_in_progress env.createdRun url cr).1.filter isCompletionCall = [] :=
    List.filter_eq_nil_iff.mpr (by
      intro a ha
      simp [set_check_trace_not_completion env.createdRun url cr a ha])
  have hr : (attemptLoop env 3 1 3).1.filter isCompletionCall = [] :=
    List.filter_eq_nil_iff.mpr (by
      intro a ha
      rcases attemptLoop_trace_sleep env 3 3 1 a ha with ⟨n, rfl⟩
      simp [isCompletionCall])
  unfold run_pull_request_check completeCheck
  cases hout : (attemptLoop env 3 1 3).2 with
  | error e =>
    cases e <;>
      simp [List.filter_append, hs, hr, isCompletionCall, List.getLast?_concat]
  | ok res =>
    have hm : (env.redmineSaves.map ApiCall.issueSave).filter isCompletionCall = [] :=
      List.filter_eq_nil_iff.mpr (by
        intro a ha
        rcases List.mem_map.mp ha with ⟨n, _, rfl⟩
        simp [isCompletionCall])
    simp [List.filter_append, hs, hr, hm, isCompletionCall, List.getLast?_concat]

/-! ## C1: conclusion success iff only valid issues found -/

theorem insertIssueById_ne_nil (x : RIssue) (l : List RIssue) : insertIssueById x l ≠ [] := by
  cases l with
  | nil => simp [insertIssueById]
  | cons y ys =>
    simp only [insertIssueById]
    split <;> simp

theorem sortIssuesById_eq_nil (l : List RIssue) : sortIssuesById l = [] ↔ l = [] := by
  cases l with
  | nil => simp [sortIssuesById]
  | cons x xs =>
    simp only [sortIssuesById, List.foldr_cons]
    exact ⟨fun h => absurd h (insertIssueById_ne_nil x _), fun h => by cases h⟩

theorem format_redmine_issues_eq_nil (l : List RIssue) :
    format_redmine_issues l = [] ↔ l = [] := by
  simp [format_redmine_issues, sortIssuesById_eq_nil]

theorem format_invalid_commit_messages_eq_nil (l : List PCommit) :
    format_invalid_commit_messages l = [] ↔ l = [] := by
  simp [format_invalid_commit_messages]

theorem conclusionAndOutput_success_iff (cr : CheckRunInfo) (results : IssueValidation)
    (ics : List PCommit) :
    ((conclusionAndOutput cr results ics).1 = "success" ↔
      ics = [] ∧ results.invalid_project_issues = [] ∧ results.missing_issue_ids = []) := by
  have hR : (ics = [] ∧ results.invalid_project_issues = [] ∧ results.missing_issue_ids = []) ↔
      (format_invalid_commit_messages ics = [] ∧
       format_redmine_issues results.invalid_project_issues = [] ∧
       results.missing_issue_ids.map (fun n => toString n) = []) := by
    simp [format_invalid_commit_messages_eq_nil, format_redmine_issues_eq_nil,
      List.map_eq_nil_iff]
  rw [hR]
  rcases e1 : format_invalid_commit_messages ics with _ | ⟨a1, t1⟩ <;>
  rcases e2 : format_redmine_issues results.invalid_project_issues with _ | ⟨a2, t2⟩ <;>
  rcases e3 : results.missing_issue_ids.map (fun n => toString n) with _ | ⟨a3, t3⟩ <;>
  rcases e4 : format_redmine_issues results.valid_issues with _ | ⟨a4, t4⟩ <;>
    simp [conclusionAndOutput, issue_summary, e1, e2, e3, e4, List.filter, List.any]

/-- C1: after a completed verification body the check-run conclusion is
`success` iff no finding category other than `Valid issues` is non-empty;
on an unconfigured-repository error or an exhausted-retry failure the
conclusion is `failure`. -/
theorem run_check_conclusion_success_iff (env : Env) (url : String)
    (cr : Option CheckRunInfo) :
    (∀ res, (attemptLoop env 3 1 3).2 = .ok res →
       ((run_pull_request_check env url cr).2.1 = "success" ↔
         res.2 = [] ∧ res.1.invalid_project_issues = [] ∧ res.1.missing_issue_ids = [])) ∧
    (∀ e, (attemptLoop env 3 1 3).2 = .error e →
       (run_pull_request_check env url cr).2.1 = "failure") := by
  constructor
  · intro res h
    unfold run_pull_request_check completeCheck
    rw [h]
    exact conclusionAndOutput_success_iff _ res.1 res.2
  · intro e h
    unfold run_pull_request_check completeCheck
    rw [h]
    cases e <;> rfl

/-- Witness for C1: an all-empty successful validation concludes `success`, an
exhausted-retry failure concludes `failure`. -/
theorem run_check_conclusion_success_iff_witness :
    (run_pull_request_check envOkEmpty "u" none).2.1 = "success" ∧
    (run_pull_request_check envAllErr "u" none).2.1 = "failure" :=
  ⟨((run_check_conclusion_success_iff envOkEmpty "u" none).1 (emptyValidation, []) rfl).mpr
      ⟨rfl, rfl, rfl⟩,
   (run_check_conclusion_success_iff envAllErr "u" none).2 .other rfl⟩

/-! ## C3: retry policy and the unconfigured-repository condition -/

/-- C3 counterexample: with an oracle whose first attempt raises
`UnconfiguredRepository` and whose later attempts succeed, the run sleeps and
retries (the bare inner handler at line 185 catches `UnconfiguredRepository`
too), and the final report is not the `Unknown repository` one — refuting
"not retried: short-circuits on its first occurrence, with no sleep and no
further attempts, to the dedicated report". -/
theorem unconfigured_retried_counterexample :
    envRetryOk.attemptOutcome 1 = .error .unconfigured ∧
    ApiCall.sleep 1 ∈ (run_pull_request_check envRetryOk "u" none).1 ∧
    (run_pull_request_check envRetryOk "u" none).2.2 ≠ unknownRepositoryOutput ∧
    (run_pull_request_check envRetryOk "u" none).2.1 = "success" := by
  refine ⟨rfl, ?_, ?_, rfl⟩ <;> decide

/-- C3 (amended): the body is retried up to 3 times with a linear backoff
sleep equal to the attempt number on any failure, *including* the
unconfigured-repository condition; the dedicated `Unknown repository` report
is produced (with conclusion `failure`) exactly when the third, final attempt
raises `UnconfiguredRepository`. -/
theorem retry_includes_unconfigured (env : Env) (url : String) (cr : Option CheckRunInfo)
    (e1 e2 : PyErr) (h1 : env.attemptOutcome 1 = .error e1)
    (h2 : env.attemptOutcome 2 = .error e2)
    (h3 : env.attemptOutcome 3 = .error .unconfigured) :
    (attemptLoop env 3 1 3).1 = [ApiCall.sleep 1, ApiCall.sleep 2] ∧
    (run_pull_request_check env url cr).2 = ("failure", unknownRepositoryOutput) ∧
    ApiCall.sleep 1 ∈ (run_pull_request_check env url cr).1 ∧
    ApiCall.sleep 2 ∈ (run_pull_request_check env url cr).1 := by
  have hA : attemptLoop env 3 1 3 = ([ApiCall.sleep 1, ApiCall.sleep 2], .error .unconfigured) := by
    simp [attemptLoop, h1, h2, h3]
  refine ⟨by rw [hA], ?_, ?_, ?_⟩
  · unfold run_pull_request_check completeCheck
    rw [hA]
  · unfold run_pull_request_check completeCheck
    rw [hA]
    simp [List.mem_append]
  · unfold run_pull_request_check completeCheck
    rw [hA]
    simp [List.mem_append]

/-- Witness for C3 (amended) at an oracle whose attempts all raise
`UnconfiguredRepository`. -/
theorem retry_includes_unconfigured_witness :
    envAllUnconf.attemptOutcome 1 = .error .unconfigured ∧
    ((attemptLoop envAllUnconf 3 1 3).1 = [ApiCall.sleep 1, ApiCall.sleep 2] ∧
     (run_pull_request_check envAllUnconf "u" none).2 = ("failure", unknownRepositoryOutput) ∧
     ApiCall.sleep 1 ∈ (run_pull_request_check envAllUnconf "u" none).1 ∧
     ApiCall.sleep 2 ∈ (run_pull_request_check envAllUnconf "u" none).1) :=
  ⟨rfl, retry_includes_unconfigured envAllUnconf "u" none .unconfigured .unconfigured rfl rfl rfl⟩

/-! ## C4: the invalid-project scenario -/

/-- C4 counterexample: with the commit message literally `"fixes #55"` the
summary regex does not match (the mandatory `(:| -) ` separator and
description are absent), so no issue id is extracted at all: the validation
reports *no* invalid-project finding for issue 55 and the conclusion is
`success`, not `failure`. -/
theorem invalid_project_scenario_counterexample :
    get_issues_from_pr cfgC4 trackerC4 "theforeman/widget" [⟨"abc123", "fixes #55"⟩] =
      .ok (⟨[], [], [], projFoo⟩, []) ∧
    (run_pull_request_check envC4bad "u" none).2.1 = "success" := by
  exact ⟨rfl, rfl⟩

/-- C4 (amended): with the grammar-conforming message `"fixes #55: fix the
bug"` (issue 55 in tracker project `bar`, policy project `foo`, `bar` not
accepted), validation reports issue 55 under the invalid-project findings,
the output carries non-empty remediation text, and the conclusion is
`failure`. -/
theorem invalid_project_scenario_amended :
    (run_pull_request_check envC4good "u" none).2.1 = "failure" ∧
    (Except.toOption (get_issues_from_pr cfgC4 trackerC4 "theforeman/widget"
        [⟨"abc123", "fixes #55: fix the bug"⟩])).map
      (fun p => p.1.invalid_project_issues) = some [issue55] ∧
    (run_pull_request_check envC4good "u" none).2.2.text =
      some (format_details [issue55] projFoo) ∧
    format_details [issue55] projFoo ≠ "" := by
  refine ⟨rfl, rfl, rfl, ?_⟩
  decide

/-! ## C5: the policy lookup contract -/

theorem splitSlashAux_append (a b : List Char) (h : '/' ∉ a) :
    splitSlashAux (a ++ '/' :: b) = some (a, b) := by
  induction a with
  | nil => simp [splitSlashAux]
  | cons c cs ih =>
    have hc : c ≠ '/' := fun hc => h (by simp [hc])
    have hcs : '/' ∉ cs := fun hm => h (by simp [hm])
    simp [splitSlashAux, hc, ih hcs]

theorem splitOnceOnSlash_append (owner rest : String) (h : '/' ∉ owner.toList) :
    splitOnceOnSlash (owner ++ "/" ++ rest) = some (owner, rest) := by
  have hl : (owner ++ "/" ++ rest).toList = owner.toList ++ '/' :: rest.toList := by
    simp [String.toList, String.data_append]
  unfold splitOnceOnSlash
  rw [hl, splitSlashAux_append owner.toList rest.toList h]
  rfl

/-- C5: for a repository identifier of the `owner/repo` form, `get_config`
raises `UnconfiguredRepository` exactly when the repository has no explicit
table entry and the owner is not in `WHITELISTED_ORGANIZATIONS`; with no
entry but a whitelisted owner it returns the default permissive `Config`
(no project, `required = false`). -/
theorem get_config_unconfigured_iff (cfg : List (String × Config)) (owner rest : String)
    (h : '/' ∉ owner.toList) :
    (get_config cfg (owner ++ "/" ++ rest) = .error .unconfigured ↔
      lookupAssoc cfg (owner ++ "/" ++ rest) = none ∧
        owner ∉ WHITELISTED_ORGANIZATIONS) ∧
    (lookupAssoc cfg (owner ++ "/" ++ rest) = none →
      owner ∈ WHITELISTED_ORGANIZATIONS →
      get_config cfg (owner ++ "/" ++ rest) = .ok {}) := by
  cases hlk : lookupAssoc cfg (owner ++ "/" ++ rest) with
  | some c => simp [get_config, hlk]
  | none =>
    by_cases hw : owner ∈ WHITELISTED_ORGANIZATIONS <;>
      simp [get_config, hlk, splitOnceOnSlash_append owner rest h, hw]

/-- Witness for C5: an unconfigured whitelisted repository gets the default
policy, an unconfigured non-whitelisted one raises. -/
theorem get_config_unconfigured_iff_witness :
    get_config [] ("theforeman" ++ "/" ++ "newrepo") = .ok {} ∧
    get_config [] ("evil" ++ "/" ++ "x") = .error .unconfigured :=
  ⟨(get_config_unconfigured_iff [] "theforeman" "newrepo" (by decide)).2 rfl (by decide),
   ((get_config_unconfigured_iff [] "evil" "x" (by decide)).1).mpr ⟨rfl, by decide⟩⟩


/-! ## C7: reconciliation is idempotent -/

theorem prLink_empty_after_apply (sm : StatusModel) (u : String) (cp : Bool)
    (asg : Option Nat) (i : TIssue) :
    (computeUpdates sm u cp asg (applyUpdates i (computeUpdates sm u cp asg i))).customFields
      = [] := by
  by_cases hcp : cp
  · simp [computeUpdates, hcp]
  · by_cases hmem : u ∈ i.prFieldValue
    · simp [computeUpdates, applyUpdates, hcp, hmem]
    · simp [computeUpdates, applyUpdates, hcp, hmem, List.find?]

theorem assignee_empty_after_apply (sm : StatusModel) (u : String) (cp : Bool)
    (asg : Option Nat) (i : TIssue) :
    (computeUpdates sm u cp asg (applyUpdates i (computeUpdates sm u cp asg i))).assignedToId
      = none := by
  cases asg with
  | none => simp [computeUpdates]
  | some a =>
    rcases hA : i.assignedTo with _ | b <;>
      simp [computeUpdates, applyUpdates, hA]

theorem status_empty_after_apply (sm : StatusModel) (u : String) (cp : Bool)
    (asg : Option Nat) (i : TIssue) :
    (computeUpdates sm u cp asg (applyUpdates i (computeUpdates sm u cp asg i))).statusId
      = none := by
  by_cases hcond : sm.closed i.statusId ∨ i.statusId = sm.readyForTesting
  · simp [computeUpdates, applyUpdates, hcond]
  · simp [computeUpdates, applyUpdates, hcond]

theorem computeUpdates_after_apply (sm : StatusModel) (u : String) (cp : Bool)
    (asg : Option Nat) (i : TIssue) :
    (computeUpdates sm u cp asg (applyUpdates i (computeUpdates sm u cp asg i))).isEmpty
      = true := by
  simp [IssueUpdates.isEmpty, prLink_empty_after_apply, assignee_empty_after_apply,
    status_empty_after_apply]

theorem update_redmine_on_issue_idem (sm : StatusModel) (u : String) (cp : Bool)
    (asg : Option Nat) (i : TIssue) :
    (update_redmine_on_issue sm u cp asg (update_redmine_on_issue sm u cp asg i).2).1 = [] := by
  unfold update_redmine_on_issue
  by_cases hr : sm.rejected i.statusId
  · simp [hr]
  · simp only [hr, Bool.false_eq_true, if_false]
    by_cases he : (computeUpdates sm u cp asg i).isEmpty
    · simp [he, hr]
    · simp only [he, Bool.false_eq_true, if_false]
      by_cases hr2 :
          sm.rejected (applyUpdates i (computeUpdates sm u cp asg i)).statusId
      · simp [hr2]
      · simp [hr2, computeUpdates_after_apply sm u cp asg i]

/-- C7: per non-rejected issue all field changes are assembled into one diff
applied in at most one save (zero when the diff is empty), and reconciliation
is idempotent: re-running `update_redmine_on_issues` on the issue states the
first run produced performs zero saves. -/
theorem update_redmine_idempotent (sm : StatusModel) (u : String) (cp : Bool)
    (asg : Option Nat) (issues : List TIssue) :
    (update_redmine_on_issues sm u cp asg
        (update_redmine_on_issues sm u cp asg issues).2).1 = [] ∧
    (∀ i, (update_redmine_on_issue sm u cp asg i).1.length ≤ 1) ∧
    (∀ i, (computeUpdates sm u cp asg i).isEmpty = true →
      (update_redmine_on_issue sm u cp asg i).1 = []) := by
  refine ⟨?_, ?_, ?_⟩
  · unfold update_redmine_on_issues
    rw [List.map_map]
    simp only [List.flatten_eq_nil_iff]
    intro x hx
    rcases List.mem_map.mp hx with ⟨i, _, rfl⟩
    exact update_redmine_on_issue_idem sm u cp asg i
  · intro i
    unfold update_redmine_on_issue
    by_cases hr : sm.rejected i.statusId
    · simp [hr]
    · by_cases he : (computeUpdates sm u cp asg i).isEmpty <;> simp [hr, he]
  · intro i he
    unfold update_redmine_on_issue
    by_cases hr : sm.rejected i.statusId
    · simp [hr]
    · simp [hr, he]

/-- Witness for C7 at a concrete out-of-sync issue: the first pass issues one
save, the second pass none. -/
theorem update_redmine_idempotent_witness :
    (update_redmine_on_issues smW "https://github.example/pr/1" false (some 7) [issueW]).1.length
      = 1 ∧
    (update_redmine_on_issues smW "https://github.example/pr/1" false (some 7)
        (update_redmine_on_issues smW "https://github.example/pr/1" false (some 7)
          [issueW]).2).1 = [] ∧
    (computeUpdates smW "https://github.example/pr/1" false (some 7) issueW).isEmpty = false :=
  ⟨by decide,
   (update_redmine_idempotent smW "https://github.example/pr/1" false (some 7) [issueW]).1,
   by decide⟩

/-! ## C6: the merge flow -/

/-- C6: the merge flow acts only on merged PRs into a recognised branch, only
gathers `fixes` references, only writes fix-versions — to issues of the
configured tracker project — and silently does nothing when the repository has
no configured project or the project has no matching open version; it never
touches a check run. -/
theorem on_pr_merge_props (cfg : List (String × Config)) (tracker : RTracker)
    (merged : Bool) (repo branch : String) (commits : List PCommit) (tr : List ApiCall)
    (h : on_pr_merge cfg tracker merged repo branch commits = .ok tr) :
    (merged = false → tr = []) ∧
    (recognizedBranchPfx branch = none → tr = []) ∧
    (∀ config, get_config cfg repo = .ok config → config.project = none → tr = []) ∧
    (∀ c ∈ tr, ∃ i v, c = ApiCall.setFixedInVersion i v) ∧
    (∀ i v, ApiCall.setFixedInVersion i v ∈ tr →
      (∃ ids, gatherFixes commits = .ok ids ∧ i ∈ ids) ∧
      (∃ config pname project, get_config cfg repo = .ok config ∧
        config.project = some pname ∧
        tracker.projects.find? (fun p => p.name = pname) = some project ∧
        ∃ issue, issue ∈ tracker.issues ∧ issue.id = i ∧
          issue.project.id = project.id)) ∧
    (∀ config pname project pfx0, get_config cfg repo = .ok config →
      config.project = some pname → recognizedBranchPfx branch = some pfx0 →
      tracker.projects.find? (fun p => p.name = pname) = some project →
      get_latest_open_version project (computedPfx config pfx0) = none → tr = []) := by
  cases merged with
  | false =>
    simp only [on_pr_merge, Bool.not_false, if_true] at h
    obtain rfl : tr = [] := by simpa using h.symm
    exact ⟨fun _ => rfl, fun _ => rfl, fun _ _ _ => rfl,
      fun c hc => absurd hc (List.not_mem_nil c),
      fun i v hmem => absurd hmem (List.not_mem_nil _),
      fun _ _ _ _ _ _ _ _ _ => rfl⟩
  | true =>
    cases hb : recognizedBranchPfx branch with
    | none =>
      simp [on_pr_merge, hb] at h
      obtain rfl : tr = [] := by simpa using h.symm
      exact ⟨fun _ => rfl, fun _ => rfl, fun _ _ _ => rfl,
        fun c hc => absurd hc (List.not_mem_nil c),
        fun i v hmem => absurd hmem (List.not_mem_nil _),
        fun _ _ _ _ _ _ _ _ _ => rfl⟩
    | some pfx0 =>
      cases hg : get_config cfg repo with
      | error e =>
        cases e with
        | unconfigured =>
          simp [on_pr_merge, hb, hg] at h
          obtain rfl : tr = [] := by simpa using h.symm
          exact ⟨fun _ => rfl, fun _ => rfl, fun _ _ _ => rfl,
            fun c hc => absurd hc (List.not_mem_nil c),
            fun i v hmem => absurd hmem (List.not_mem_nil _),
            fun _ _ _ _ _ _ _ _ _ => rfl⟩
        | valueError => simp [on_pr_merge, hb, hg] at h
      | ok config =>
        cases hp : config.project with
        | none =>
          simp [on_pr_merge, hb, hg, hp] at h
          obtain rfl : tr = [] := by simpa using h.symm
          exact ⟨fun _ => rfl, fun _ => rfl, fun _ _ _ => rfl,
            fun c hc => absurd hc (List.not_mem_nil c),
            fun i v hmem => absurd hmem (List.not_mem_nil _),
            fun _ _ _ _ _ _ _ _ _ => rfl⟩
        | some pname =>
          cases hf : gatherFixes commits with
          | error e => simp [on_pr_merge, hb, hg, hp, hf] at h
          | ok ids =>
            by_cases hids : ids.isEmpty
            · simp [on_pr_merge, hb, hg, hp, hf, hids] at h
              obtain rfl : tr = [] := by simpa using h.symm
              exact ⟨fun _ => rfl, fun _ => rfl, fun _ _ _ => rfl,
                fun c hc => absurd hc (List.not_mem_nil c),
                fun i v hmem => absurd hmem (List.not_mem_nil _),
                fun _ _ _ _ _ _ _ _ _ => rfl⟩
            · cases hfind : tracker.projects.find? (fun p => p.name = pname) with
              | none => simp [on_pr_merge, hb, hg, hp, hf, hids, hfind] at h
              | some project =>
                cases hver : get_latest_open_version project (computedPfx config pfx0) with
                | none =>
                  simp [on_pr_merge, hb, hg, hp, hf, hids, hfind, hver] at h
                  obtain rfl : tr = [] := by simpa using h.symm
                  exact ⟨fun _ => rfl, fun _ => rfl, fun _ _ _ => rfl,
                    fun c hc => absurd hc (List.not_mem_nil c),
                    fun i v hmem => absurd hmem (List.not_mem_nil _),
                    fun _ _ _ _ _ _ _ _ _ => rfl⟩
                | some ver =>
                  simp [on_pr_merge, hb, hg, hp, hf, hids, hfind, hver] at h
                  subst h
                  refine ⟨fun hf2 => Bool.noConfusion hf2, fun h2 => Option.noConfusion h2,
                    ?_, ?_, ?_, ?_⟩
                  · intro c' hc' hp'
                    injection hc' with e
                    subst e
                    rw [hp] at hp'
                    exact Option.noConfusion hp'
                  · intro c hc
                    rcases List.mem_filterMap.mp hc with ⟨issue, hin, heq⟩
                    by_cases hproj : issue.project.id = project.id
                    · rw [if_pos hproj] at heq
                      injection heq with h2
                      exact ⟨issue.id, ver.name, h2.symm⟩
                    · rw [if_neg hproj] at heq
                      exact Option.noConfusion heq
                  · intro i v hmem
                    rcases List.mem_filterMap.mp hmem with ⟨issue, hin, heq⟩
                    rcases List.mem_filter.mp hin with ⟨hinT, hdec⟩
                    have hidmem : issue.id ∈ ids := of_decide_eq_true hdec
                    by_cases hproj : issue.project.id = project.id
                    · rw [if_pos hproj] at heq
                      injection heq with h2
                      injection h2 with hi hv
                      subst hi
                      exact ⟨⟨ids, rfl, hidmem⟩,
                        ⟨config, pname, project, rfl, hp, hfind, issue, hinT, rfl, hproj⟩⟩
                    · rw [if_neg hproj] at heq
                      exact Option.noConfusion heq
                  · intro c' pn' proj' pf' hA hB hC hD hE
                    injection hA with e1
                    subst e1
                    rw [hp] at hB
                    injection hB with e2
                    subst e2
                    injection hC with e3
                    subst e3
                    rw [hfind] at hD
                    injection hD with e4
                    subst e4
                    rw [hver] at hE
                    exact Option.noConfusion hE

/-- Witness for C6 at the stable-branch scenario: merging `fixes #10: x` into
`3.0-stable` sets issue 10's fix-version to `3.0.5`, with only tracker writes. -/
theorem on_pr_merge_props_witness :
    on_pr_merge cfgC6 trackerC6 true "theforeman/foreman" "3.0-stable"
      [⟨"abc", "fixes #10: x"⟩] = .ok [ApiCall.setFixedInVersion 10 "3.0.5"] ∧
    (∀ c ∈ [ApiCall.setFixedInVersion 10 "3.0.5"], ∃ i v, c = ApiCall.setFixedInVersion i v) :=
  ⟨rfl, (on_pr_merge_props cfgC6 trackerC6 true "theforeman/foreman" "3.0-stable"
      [⟨"abc", "fixes #10: x"⟩] [ApiCall.setFixedInVersion 10 "3.0.5"] rfl).2.2.2.1⟩

/-! ## C2: the commit parser -/

theorem takeDigits_digits : ∀ cs : List Char, ∀ c ∈ (takeDigits cs).1, pyIsDigit c = true
  | [] => by simp [takeDigits]
  | c0 :: cs => by
    by_cases h : pyIsDigit c0
    · simp only [takeDigits, h, if_true]
      intro c hc
      rcases List.mem_cons.mp hc with rfl | hc
      · exact h
      · exact takeDigits_digits cs c hc
    · simp [takeDigits, h]

theorem matchRefToken_spec (cs ds rest : List Char) (h : matchRefToken cs = some (ds, rest)) :
    ds ≠ [] ∧ (∀ c ∈ ds, pyIsDigit c = true) := by
  cases cs with
  | nil => cases h
  | cons c cs0 =>
    simp only [matchRefToken] at h
    by_cases hc : c = '#'
    · rw [if_pos hc] at h
      by_cases he : (takeDigits cs0).1.isEmpty
      · rw [if_pos he] at h; cases h
      · rw [if_neg he] at h
        injection h with h2
        have h1 : (takeDigits cs0).1 = ds := congrArg Prod.fst h2
        subst h1
        refine ⟨?_, takeDigits_digits cs0⟩
        intro hnil
        exact he (by rw [hnil]; rfl)
    · rw [if_neg hc] at h; cases h

theorem findRefsAux_digits : ∀ ds : List Char, (∀ c ∈ ds, pyIsDigit c = true) →
    ∀ rest acc, findRefsAux (ds ++ rest) (some acc) = findRefsAux rest (some (ds.reverse ++ acc))
  | [], _ => by intro rest acc; simp
  | d :: ds, hd => by
    intro rest acc
    have hdd : pyIsDigit d = true := hd d (List.mem_cons_self d ds)
    have hds : ∀ c ∈ ds, pyIsDigit c = true := fun c hc => hd c (List.mem_cons_of_mem d hc)
    simp only [List.cons_append, findRefsAux, hdd, if_true, List.append_eq]
    rw [findRefsAux_digits ds hds rest (d :: acc)]
    rw [List.reverse_cons, List.append_assoc, List.singleton_append]

theorem reverse_isEmpty_false (ds : List Char) (hne : ds ≠ []) :
    ds.reverse.isEmpty = false := by
  cases hq : ds.reverse.isEmpty
  · rfl
  · exact absurd (by simpa using List.isEmpty_iff.mp hq) hne

theorem findRefsAux_digits_nil (ds : List Char) (hne : ds ≠ [])
    (hd : ∀ c ∈ ds, pyIsDigit c = true) :
    findRefsAux (ds ++ []) (some []) = [ds] := by
  rw [findRefsAux_digits ds hd [] []]
  simp [findRefsAux, reverse_isEmpty_false ds hne]

theorem matchRefTail_findRefs : ∀ (fuel : Nat) (cs ds : List Char), ds ≠ [] →
    (∀ c ∈ ds, pyIsDigit c = true) →
    findRefsAux (ds ++ (matchRefTail fuel cs).2.1) (some []) = ds :: (matchRefTail fuel cs).1 := by
  intro fuel
  induction fuel with
  | zero =>
    intro cs ds hne hd
    simpa [matchRefTail] using findRefsAux_digits_nil ds hne hd
  | succ n ih =>
    intro cs ds hne hd
    rcases cs with _ | ⟨c1, cs1⟩
    · simpa [matchRefTail] using findRefsAux_digits_nil ds hne hd
    rcases cs1 with _ | ⟨c2, cs2⟩
    · simpa [matchRefTail] using findRefsAux_digits_nil ds hne hd
    by_cases hc1 : c1 = ','
    case neg =>
      simp only [matchRefTail, if_neg hc1]
      simpa using findRefsAux_digits_nil ds hne hd
    case pos =>
      subst hc1
      by_cases hc2 : c2 = ' '
      case pos =>
        subst hc2
        cases hT : matchRefToken cs2 with
        | none =>
          simp only [matchRefTail, if_pos rfl, hT]
          simpa using findRefsAux_digits_nil ds hne hd
        | some p =>
          rcases p with ⟨ds', rest'⟩
          rcases matchRefToken_spec cs2 ds' rest' hT with ⟨hne', hd'⟩
          have hM : matchRefTail (n + 1) (',' :: ' ' :: cs2)
              = (ds' :: (matchRefTail n rest').1,
                 ',' :: ' ' :: '#' :: (ds' ++ (matchRefTail n rest').2.1),
                 (matchRefTail n rest').2.2) := by
            simp [matchRefTail, hT]
          rw [hM]
          rw [findRefsAux_digits ds hd _ []]
          simp only [List.append_nil, findRefsAux,
            (show pyIsDigit ',' = false from rfl),
            (show pyIsDigit ' ' = false from rfl),
            (show (',' = '#') = False from by simp), (show (' ' = '#') = False from by simp),
            (show ('#' = '#') = True from by simp),
            reverse_isEmpty_false ds hne, List.reverse_reverse, if_true, if_false,
            Bool.false_eq_true]
          rw [ih rest' ds' hne' hd']
      case neg =>
        cases hT : matchRefToken (c2 :: cs2) with
        | none =>
          simp only [matchRefTail, if_pos rfl, if_neg hc2, hT]
          simpa using findRefsAux_digits_nil ds hne hd
        | some p =>
          rcases p with ⟨ds', rest'⟩
          rcases matchRefToken_spec (c2 :: cs2) ds' rest' hT with ⟨hne', hd'⟩
          have hM : matchRefTail (n + 1) (',' :: c2 :: cs2)
              = (ds' :: (matchRefTail n rest').1,
                 ',' :: '#' :: (ds' ++ (matchRefTail n rest').2.1),
                 (matchRefTail n rest').2.2) := by
            simp [matchRefTail, hT, if_neg hc2]
          rw [hM]
          rw [findRefsAux_digits ds hd _ []]
          simp only [List.append_nil, findRefsAux,
            (show pyIsDigit ',' = false from rfl),
            (show (',' = '#') = False from by simp),
            (show ('#' = '#') = True from by simp),
            reverse_isEmpty_false ds hne, List.reverse_reverse, if_true, if_false,
            Bool.false_eq_true]
          rw [ih rest' ds' hne' hd']

theorem stripCI_lower : ∀ pat cs rest : List Char, (∀ c ∈ pat, pyLower c = c) →
    stripCI pat cs = some rest → lowerChars (cs.take pat.length) = pat
  | [], cs, rest, _, _ => by simp [lowerChars]
  | p :: ps, [], rest, _, h => by cases h
  | p :: ps, c :: cs0, rest, hp, h => by
    simp only [stripCI] at h
    by_cases hc : pyLower c = pyLower p
    · rw [if_pos hc] at h
      have hpp : pyLower p = p := hp p (List.mem_cons_self p ps)
      have hps : ∀ c ∈ ps, pyLower c = c := fun x hx => hp x (List.mem_cons_of_mem p hx)
      simp only [List.length_cons, List.take_succ_cons, lowerChars, List.map_cons]
      rw [hc, hpp]
      exact congrArg (fun l => p :: l) (stripCI_lower ps cs0 rest hps h)
    · rw [if_neg hc] at h; cases h

theorem actionMatch_lower (cs act rest : List Char) (h : actionMatch cs = some (act, rest)) :
    lowerChars act = "fixes".toList ∨ lowerChars act = "refs".toList := by
  unfold actionMatch at h
  cases h5 : stripCI ['f', 'i', 'x', 'e', 's'] cs with
  | some r5 =>
    rw [h5] at h
    injection h with h2
    have ha : cs.take 5 = act := congrArg Prod.fst h2
    subst ha
    exact Or.inl (stripCI_lower ['f', 'i', 'x', 'e', 's'] cs r5 (by decide) h5)
  | none =>
    rw [h5] at h
    cases h4 : stripCI ['r', 'e', 'f', 's'] cs with
    | some r4 =>
      rw [h4] at h
      injection h with h2
      have ha : cs.take 4 = act := congrArg Prod.fst h2
      subst ha
      exact Or.inr (stripCI_lower ['r', 'e', 'f', 's'] cs r4 (by decide) h4)
    | none => rw [h4] at h; cases h

theorem summaryMatch_action_tokens (s : List Char) (m : SummaryMatch)
    (h : commitValidSummaryMatch s = some m) :
    (lowerChars m.action = "fixes".toList ∨ lowerChars m.action = "refs".toList) ∧
    findIssueRefs m.issuesSpan = m.tokens := by
  unfold commitValidSummaryMatch at h
  cases hA : actionMatch s with
  | none => rw [hA] at h; cases h
  | some p =>
    rcases p with ⟨act, rest0⟩
    rw [hA] at h
    rcases rest0 with _ | ⟨c, cs1⟩
    · cases h
    · simp only at h
      by_cases hc : c = ' '
      · rw [if_pos hc] at h
        cases hT : matchRefToken cs1 with
        | none => rw [hT] at h; cases h
        | some q =>
          rcases q with ⟨ds, rest1⟩
          rw [hT] at h
          simp only at h
          cases hS : sepAndRest (matchRefTail rest1.length rest1).2.2 with
          | none => rw [hS] at h; cases h
          | some r =>
            rw [hS] at h
            injection h with h2
            subst h2
            rcases matchRefToken_spec cs1 ds rest1 hT with ⟨hne, hd⟩
            constructor
            · exact actionMatch_lower s act (c :: cs1) hA
            · show findIssueRefs ('#' :: (ds ++ (matchRefTail rest1.length rest1).2.1))
                = ds :: (matchRefTail rest1.length rest1).1
              unfold findIssueRefs
              simp only [findRefsAux, (show ('#' = '#') = True from by simp), if_true]
              exact matchRefTail_findRefs rest1.length rest1 ds hne hd
      · rw [if_neg hc] at h; cases h

theorem pySetList_toFinset (xs : List Nat) : (pySetList xs).toFinset = xs.toFinset := by
  have key : ∀ (ys acc : List Nat),
      (ys.foldl (fun a x => if x ∈ a then a else a ++ [x]) acc).toFinset =
        acc.toFinset ∪ ys.toFinset := by
    intro ys
    induction ys with
    | nil => intro acc; simp
    | cons x xs ih =>
      intro acc
      by_cases hx : x ∈ acc
      · simp only [List.foldl_cons, if_pos hx]
        rw [ih]
        ext a
        simp only [Finset.mem_union, List.mem_toFinset, List.toFinset_cons, Finset.mem_insert]
        constructor
        · tauto
        · rintro (h | h | h)
          · exact Or.inl h
          · exact Or.inl (h ▸ hx)
          · exact Or.inr h
      · simp only [List.foldl_cons, if_neg hx]
        rw [ih]
        ext a
        simp only [Finset.mem_union, List.mem_toFinset, List.toFinset_cons, Finset.mem_insert,
          List.toFinset_append, List.mem_append, List.mem_singleton]
        tauto
  simpa using key xs []

/-- C2 counterexample: the empty commit message has no first line
(`splitlines()` is empty) and the parsing step raises an `IndexError` instead
of returning empty sets, contradicting "no exception is raised" for messages
whose first line does not match. -/
theorem parse_commit_message_empty_counterexample :
    firstLine "" = none ∧ parseCommitMessage "" = .error () := ⟨rfl, rfl⟩

/-- C2 (amended): for every *non-empty* commit message, parsing never raises;
when the first line matches `COMMIT_VALID_SUMMARY_REGEX` the action-selected
set holds exactly the integers of the `#<digits>` tokens of the matched
reference list and the other set is empty, and when it does not match both
sets are empty.  (The empty message raises an `IndexError` from
`splitlines()[0]`.) -/
theorem parse_commit_message_sets (message : String) (hne : message ≠ "") :
    ∃ line, firstLine message = some line ∧
      ((commitValidSummaryMatch line.toList = none ∧
          parseCommitMessage message = .ok ⟨[], []⟩) ∨
       (∃ m, commitValidSummaryMatch line.toList = some m ∧
         ((lowerChars m.action = "fixes".toList ∧
            ∃ r, parseCommitMessage message = .ok r ∧ r.refs = [] ∧
              r.fixes.toFinset = (m.tokens.map digitsToNat).toFinset) ∨
          (lowerChars m.action = "refs".toList ∧
            ∃ r, parseCommitMessage message = .ok r ∧ r.fixes = [] ∧
              r.refs.toFinset = (m.tokens.map digitsToNat).toFinset)))) := by
  have hE : message.isEmpty = false := isEmpty_false_of_ne message hne
  obtain ⟨line, hfl⟩ : ∃ line, firstLine message = some line :=
    ⟨String.mk (message.toList.takeWhile (fun c => ¬ pyIsLineBreak c)),
     by simp [firstLine, hE]⟩
  refine ⟨line, hfl, ?_⟩
  cases hM : commitValidSummaryMatch line.toList with
  | none =>
    left
    refine ⟨rfl, ?_⟩
    simp only [parseCommitMessage, hfl, hM]
  | some m =>
    right
    refine ⟨m, rfl, ?_⟩
    rcases summaryMatch_action_tokens line.toList m hM with ⟨hact, htok⟩
    rcases hact with h | h
    · left
      refine ⟨h, ⟨pySetList ((findIssueRefs m.issuesSpan).map digitsToNat), []⟩, ?_, rfl, ?_⟩
      · simp only [parseCommitMessage, hfl, hM]
        rw [if_pos h]
      · show (pySetList ((findIssueRefs m.issuesSpan).map digitsToNat)).toFinset
          = (m.tokens.map digitsToNat).toFinset
        rw [htok, pySetList_toFinset]
    · right
      have hne2 : lowerChars m.action ≠ "fixes".toList := by rw [h]; decide
      refine ⟨h, ⟨[], pySetList ((findIssueRefs m.issuesSpan).map digitsToNat)⟩, ?_, rfl, ?_⟩
      · simp only [parseCommitMessage, hfl, hM]
        rw [if_neg hne2, if_pos h]
      · show (pySetList ((findIssueRefs m.issuesSpan).map digitsToNat)).toFinset
          = (m.tokens.map digitsToNat).toFinset
        rw [htok, pySetList_toFinset]

/-- Witness for C2 (amended) at a concrete mixed-case message. -/
theorem parse_commit_message_sets_witness :
    ("Fixes #12, #7: subject" : String) ≠ "" ∧
    (∃ line, firstLine "Fixes #12, #7: subject" = some line ∧
      ((commitValidSummaryMatch line.toList = none ∧
          parseCommitMessage "Fixes #12, #7: subject" = .ok ⟨[], []⟩) ∨
       (∃ m, commitValidSummaryMatch line.toList = some m ∧
         ((lowerChars m.action = "fixes".toList ∧
            ∃ r, parseCommitMessage "Fixes #12, #7: subject" = .ok r ∧ r.refs = [] ∧
              r.fixes.toFinset = (m.tokens.map digitsToNat).toFinset) ∨
          (lowerChars m.action = "refs".toList ∧
            ∃ r, parseCommitMessage "Fixes #12, #7: subject" = .ok r ∧ r.fixes = [] ∧
              r.refs.toFinset = (m.tokens.map digitsToNat).toFinset))))) :=
  ⟨by decide, parse_commit_message_sets "Fixes #12, #7: subject" (by decide)⟩
